import Mathlib

/-!
Shallow embedding of `src/aquarium/capture/webcam_capture.py` (class
`WebcamCapture`): a threaded wrapper around an OpenCV `VideoCapture` with a
bounded frame deque, reconnect backoff, and a rolling FPS window.

Modelling choices:
* Python object references to frame arrays are modelled by a heap `Mem`
  (a list of `FrameData`); the frame deque stores heap indices, so that
  `latest.copy()` in `get_frame` (a fresh allocation with equal content)
  and the effect of mutating the returned array can be expressed.
* The camera device, the clock and the other thread's stop signal are an
  environment oracle: each iteration of `_capture_loop` consumes one
  `DevResponse` describing what `cv2` would have answered.
* Durations and timestamps are rationals (Python floats are used only for
  arithmetic the claims state exactly).
* Side effects that the claims observe (sleeps, device property sets,
  releases, failed attempts) are recorded in an `Action` log.
-/

namespace WebcamModel

/-- One decoded image: its pixel-array shape plus an abstract content id. -/
structure FrameData where
  width : Int
  height : Int
  content : Nat
  deriving DecidableEq, Repr, Inhabited

/-- The heap of frame arrays; a Python reference is an index into it. -/
abbrev Mem := List FrameData

/-- Dereference a frame pointer (`default` is never reached on valid refs). -/
def memLookup (m : Mem) (r : Nat) : FrameData :=
  m.getD r default

/-- In-place mutation of the array behind reference `r`. -/
def memSet (m : Mem) (r : Nat) (d : FrameData) : Mem :=
  m.set r d

/-- Observable side effects of the capture machinery. -/
inductive Action where
  | openFailed
  | readFailed
  | released
  | slept (d : ℚ)
  | setProp (prop : Nat) (value : ℚ)
  | appended
  deriving DecidableEq, Repr

/-- cv2 property id for requested frame width. -/
def CAP_PROP_FRAME_WIDTH : Nat := 3

/-- cv2 property id for requested frame height. -/
def CAP_PROP_FRAME_HEIGHT : Nat := 4

/-- cv2 property id for requested FPS. -/
def CAP_PROP_FPS : Nat := 5

/-- What the environment (cv2 device, clock, concurrent `stop()` caller)
answers during one iteration of `_capture_loop`. -/
structure DevResponse where
  /-- the stop event was set by another thread before this iteration's check -/
  stopSet : Bool
  /-- result of `cap.open(index)` if it is attempted -/
  openOk : Bool
  /-- width/height the device reports back after `_apply_capture_settings` -/
  reported : Int × Int
  /-- the ok flag of `cap.read()` if it is attempted -/
  readOk : Bool
  /-- the frame `cap.read()` returns when `readOk` -/
  frame : FrameData
  /-- `time.monotonic()` at the timestamp append -/
  time : ℚ
  deriving DecidableEq, Repr

/-- State of a `WebcamCapture` object (device handle, worker bookkeeping,
frame deque as heap references, FPS timestamp deque, resolutions). -/
structure CaptureState where
  webcam_index : Int
  buffer_size : Nat
  reconnect_backoff_s : ℚ
  target_fps : ℚ
  /-- `self.cap.isOpened()` -/
  capOpened : Bool
  /-- `self._thread is not None and self._thread.is_alive()` -/
  threadLive : Bool
  /-- `self._stop_event.is_set()` -/
  stopEventSet : Bool
  /-- ghost counter of `threading.Thread(...).start()` calls -/
  spawnCount : Nat
  /-- `self._frame_buffer`: deque of references, oldest first -/
  frame_buffer : List Nat
  /-- `self._frame_available.is_set()` -/
  frame_available : Bool
  /-- `self._frame_times`: deque of monotonic timestamps, oldest first -/
  frame_times : List ℚ
  /-- capacity `max(2, fps_window)` of `_frame_times` -/
  fps_window : Nat
  capture_resolution : Int × Int
  native_resolution : Int × Int
  inference_resolution : Int × Int
  deriving DecidableEq, Repr

/-- Constructor arguments of `WebcamCapture.__init__`. -/
structure Config where
  webcam_index : Int
  buffer_size : Int
  reconnect_backoff_s : ℚ
  capture_resolution : Int × Int
  inference_resolution : Int × Int
  target_fps : ℚ
  fps_window : Int
  deriving DecidableEq, Repr

/-- `WebcamCapture.__init__`: `deviceOpens` is whether
`cv2.VideoCapture(webcam_index)` managed to open the device. -/
def init (cfg : Config) (deviceOpens : Bool) : CaptureState :=
  { webcam_index := cfg.webcam_index
    buffer_size := (max 1 cfg.buffer_size).toNat
    reconnect_backoff_s := cfg.reconnect_backoff_s
    target_fps := cfg.target_fps
    capOpened := deviceOpens
    threadLive := false
    stopEventSet := false
    spawnCount := 0
    frame_buffer := []
    frame_available := false
    frame_times := []
    fps_window := (max 2 cfg.fps_window).toNat
    capture_resolution := cfg.capture_resolution
    native_resolution := (0, 0)
    inference_resolution := cfg.inference_resolution }

/-- `collections.deque(maxlen := cap).append`: append right, evicting from
the left whatever exceeds the capacity. -/
def dequeAppend (cap : Nat) (l : List α) (x : α) : List α :=
  let l2 := l ++ [x]
  if cap < l2.length then l2.drop (l2.length - cap) else l2

/-- `WebcamCapture._apply_capture_settings`: request positive
width/height/fps on the device, then store the device's reported
width/height (the `reported` readback) as the native resolution. -/
def applyCaptureSettings (s : CaptureState) (reported : Int × Int) :
    CaptureState × List Action :=
  let a1 : List Action :=
    if 0 < s.capture_resolution.1 then
      [Action.setProp CAP_PROP_FRAME_WIDTH (s.capture_resolution.1 : ℚ)]
    else []
  let a2 : List Action :=
    if 0 < s.capture_resolution.2 then
      [Action.setProp CAP_PROP_FRAME_HEIGHT (s.capture_resolution.2 : ℚ)]
    else []
  let a3 : List Action :=
    if 0 < s.target_fps then [Action.setProp CAP_PROP_FPS s.target_fps]
    else []
  ({ s with native_resolution := reported }, a1 ++ a2 ++ a3)

/-- The read phase of one `_capture_loop` iteration, entered with the
device open: on read failure release the handle and back off; on success
append the frame (under the buffer lock) and the timestamp (under the fps
lock). -/
def readPhase (s : CaptureState) (openActs : List Action) (mem : Mem)
    (r : DevResponse) : CaptureState × Mem × List Action :=
  if r.readOk then
    let ref := mem.length
    let s1 := { s with
      frame_buffer := dequeAppend s.buffer_size s.frame_buffer ref
      frame_available := true }
    let s2 := { s1 with
      frame_times := dequeAppend s1.fps_window s1.frame_times r.time }
    (s2, mem ++ [r.frame], openActs ++ [Action.appended])
  else
    ({ s with capOpened := false }, mem,
      openActs ++ [Action.readFailed, Action.released,
        Action.slept s.reconnect_backoff_s])

/-- One iteration of the body of `_capture_loop` (the stop check is done by
`captureLoop`): reopen the device if needed, then read. -/
def loopIter (s : CaptureState) (mem : Mem) (r : DevResponse) :
    CaptureState × Mem × List Action :=
  match s.capOpened, r.openOk with
  | false, false =>
      (s, mem, [Action.openFailed, Action.slept s.reconnect_backoff_s])
  | false, true =>
      let p := applyCaptureSettings { s with capOpened := true } r.reported
      readPhase p.1 p.2 mem r
  | true, _ => readPhase s [] mem r

/-- `WebcamCapture._capture_loop`: run iterations until the stop event is
observed; `none` means the worker is still running after consuming every
response. On stop, release the handle once and exit. -/
def captureLoop (s : CaptureState) (mem : Mem) :
    List DevResponse → Option (CaptureState × Mem × List Action)
  | [] =>
      if s.stopEventSet then
        some ({ s with capOpened := false }, mem, [Action.released])
      else none
  | r :: rs =>
      let s0 := if r.stopSet then { s with stopEventSet := true } else s
      if s0.stopEventSet then
        some ({ s0 with capOpened := false }, mem, [Action.released])
      else
        let p := loopIter s0 mem r
        (captureLoop p.1 p.2.1 rs).map fun q => (q.1, q.2.1, p.2.2 ++ q.2.2)

/-- The capture worker's iterations while no stop is requested (the states
a running `WebcamCapture` passes through). -/
def runIters (s : CaptureState) (mem : Mem) :
    List DevResponse → CaptureState × Mem × List Action
  | [] => (s, mem, [])
  | r :: rs =>
      let p := loopIter s mem r
      let q := runIters p.1 p.2.1 rs
      (q.1, q.2.1, p.2.2 ++ q.2.2)

/-- Outcome of `WebcamCapture.get_frame`. -/
inductive GetFrameResult where
  /-- returned `None` because `_frame_available` is not set -/
  | noFrame
  /-- returned a fresh copy of the latest frame, at heap reference `ref` -/
  | frame (ref : Nat)
  /-- `self._frame_buffer[-1]` raised `IndexError` on an empty deque -/
  | indexError
  deriving DecidableEq, Repr

/-- `WebcamCapture.get_frame`: `None` before any frame arrived, else a
fresh copy (`latest.copy()`) of the newest buffered frame. -/
def get_frame (s : CaptureState) (mem : Mem) : GetFrameResult × Mem :=
  if s.frame_available = false then (GetFrameResult.noFrame, mem)
  else
    match s.frame_buffer.getLast? with
    | none => (GetFrameResult.indexError, mem)
    | some ref => (GetFrameResult.frame mem.length,
        mem ++ [memLookup mem ref])

/-- The image content `get_frame` hands to the caller, if any. -/
def getFrameContent (s : CaptureState) (mem : Mem) : Option FrameData :=
  match get_frame s mem with
  | (GetFrameResult.frame ref, mem2) => some (memLookup mem2 ref)
  | _ => none

/-- Model of the external `cv2.resize`: a fresh array of exactly the
requested size computed from the input frame. -/
def cvResize (f : FrameData) (w h : Int) : FrameData :=
  { width := w, height := h, content := f.content }

/-- `WebcamCapture.get_frame_for_inference`: take `get_frame`'s result; do
not resize when a target dimension is non-positive, when the target equals
the native resolution, or when the native resolution is still `(0, 0)`. -/
def get_frame_for_inference (s : CaptureState) (mem : Mem) :
    GetFrameResult × Mem :=
  match get_frame s mem with
  | (GetFrameResult.frame ref, mem2) =>
      let tw := s.inference_resolution.1
      let th := s.inference_resolution.2
      if tw ≤ 0 ∨ th ≤ 0 then (GetFrameResult.frame ref, mem2)
      else if (tw, th) = s.native_resolution ∨
          (s.native_resolution.1 = 0 ∧ s.native_resolution.2 = 0) then
        (GetFrameResult.frame ref, mem2)
      else
        (GetFrameResult.frame mem2.length,
          mem2 ++ [cvResize (memLookup mem2 ref) tw th])
  | other => other

/-- `WebcamCapture.start`: no-op while the worker thread is alive;
otherwise clear the stop event and spawn the worker. -/
def start (s : CaptureState) : CaptureState :=
  if s.threadLive then s
  else { s with
    stopEventSet := false
    threadLive := true
    spawnCount := s.spawnCount + 1 }

/-- `WebcamCapture.stop`: if the worker is alive, set the stop event and
join it — the worker's exit releases the device handle (`captureLoop`'s
exit path) before `join` returns — then forget the thread; otherwise
release the handle directly. -/
def stop (s : CaptureState) : CaptureState :=
  if s.threadLive then
    { s with
      stopEventSet := true
      threadLive := false
      capOpened := false }
  else { s with capOpened := false }

/-- `WebcamCapture.fps_actual`: `(len - 1) / (newest - oldest)` over the
timestamp window, or `0` with fewer than two samples or a non-positive
duration. -/
def fps_actual (s : CaptureState) : ℚ :=
  if s.frame_times.length < 2 then 0
  else
    let duration := s.frame_times.getLastD 0 - s.frame_times.headD 0
    if duration ≤ 0 then 0
    else ((s.frame_times.length : ℚ) - 1) / duration

/-- The `capture_resolution` setter: store the new request and, if the
device is open, re-apply settings immediately. -/
def setCaptureResolution (s : CaptureState) (res : Int × Int)
    (reported : Int × Int) : CaptureState × List Action :=
  let s1 := { s with capture_resolution := res }
  if s1.capOpened then applyCaptureSettings s1 reported else (s1, [])

/-- The `inference_resolution` setter: store the new target only. -/
def setInferenceResolution (s : CaptureState) (res : Int × Int) :
    CaptureState :=
  { s with inference_resolution := res }

/-- Frames captured by the loop body over a response list, threading
whether the handle is open (a read happens only when the handle is open or
the reopen succeeded; a failed read closes the handle). -/
def capturedFrames : Bool → List DevResponse → List FrameData
  | _, [] => []
  | opened, r :: rs =>
      match opened, r.openOk with
      | false, false => capturedFrames false rs
      | _, _ =>
          if r.readOk then r.frame :: capturedFrames true rs
          else capturedFrames false rs

/-- Whether the device handle is open after the loop body processed the
responses. -/
def openedAfter : Bool → List DevResponse → Bool
  | opened, [] => opened
  | opened, r :: rs =>
      match opened, r.openOk with
      | false, false => openedAfter false rs
      | _, _ => openedAfter r.readOk rs

/-- State right after the (re)open-and-configure half of a loop iteration
that reached the read: unchanged if the handle was open, otherwise open
with the native resolution refreshed. -/
def openedState (s : CaptureState) (r : DevResponse) : CaptureState :=
  if s.capOpened then s
  else { s with capOpened := true, native_resolution := r.reported }

/-- Actions of the (re)open-and-configure half of a loop iteration that
reached the read. -/
def openActs (s : CaptureState) (r : DevResponse) : List Action :=
  if s.capOpened then []
  else (applyCaptureSettings { s with capOpened := true } r.reported).2

/-- Structural invariant tying a capture state to the heap: the clamped
capacity is positive, the availability flag implies a non-empty deque, and
every buffered reference is a valid heap index. -/
def Inv (s : CaptureState) (mem : Mem) : Prop :=
  1 ≤ s.buffer_size
  ∧ (s.frame_available = true → s.frame_buffer ≠ [])
  ∧ ∀ x ∈ s.frame_buffer, x < mem.length

/-- States a `WebcamCapture` object can be in: freshly constructed, after
a worker iteration, or after any public API call. -/
inductive Reachable : CaptureState → Mem → Prop where
  | base (cfg : Config) (devOpens : Bool) : Reachable (init cfg devOpens) []
  | step {s : CaptureState} {mem : Mem} (r : DevResponse) :
      Reachable s mem → Reachable (loopIter s mem r).1 (loopIter s mem r).2.1
  | startStep {s : CaptureState} {mem : Mem} :
      Reachable s mem → Reachable (start s) mem
  | stopStep {s : CaptureState} {mem : Mem} :
      Reachable s mem → Reachable (stop s) mem
  | getFrameStep {s : CaptureState} {mem : Mem} :
      Reachable s mem → Reachable s (get_frame s mem).2
  | getInferenceStep {s : CaptureState} {mem : Mem} :
      Reachable s mem → Reachable s (get_frame_for_inference s mem).2
  | setCaptureStep {s : CaptureState} {mem : Mem} (res reported : Int × Int) :
      Reachable s mem → Reachable (setCaptureResolution s res reported).1 mem
  | setInferenceStep {s : CaptureState} {mem : Mem} (res : Int × Int) :
      Reachable s mem → Reachable (setInferenceResolution s res) mem

mutual

/-- No failed device attempt is left without a backoff sleep of `b` before
the next failed attempt (busy-loop freedom over an action log). -/
def failsOk (b : ℚ) : List Action → Bool
  | [] => true
  | Action.openFailed :: rest => sleptBeforeNext b rest
  | Action.readFailed :: rest => sleptBeforeNext b rest
  | _ :: rest => failsOk b rest

/-- After a failed attempt: a sleep of `b` must occur before any further
failed attempt. -/
def sleptBeforeNext (b : ℚ) : List Action → Bool
  | [] => false
  | Action.slept q :: rest =>
      if q = b then failsOk b rest else sleptBeforeNext b rest
  | Action.openFailed :: _ => false
  | Action.readFailed :: _ => false
  | _ :: rest => sleptBeforeNext b rest

end

/-- Concrete configuration used to instantiate the theorems. -/
def cfgW : Config :=
  { webcam_index := 0
    buffer_size := 2
    reconnect_backoff_s := 1/2
    capture_resolution := (4096, 2160)
    inference_resolution := (640, 360)
    target_fps := 30
    fps_window := 60 }

/-- A concrete captured frame. -/
def frW : FrameData := { width := 1920, height := 1080, content := 7 }

/-- A second concrete frame, used to overwrite a returned copy. -/
def frW2 : FrameData := { width := 8, height := 8, content := 99 }

/-- A device response for a successful open-and-read iteration. -/
def respW : DevResponse :=
  { stopSet := false
    openOk := true
    reported := (1920, 1080)
    readOk := true
    frame := frW
    time := 0 }

/-- A device response whose open attempt fails. -/
def respFailW : DevResponse :=
  { stopSet := false
    openOk := false
    reported := (0, 0)
    readOk := false
    frame := frW
    time := 0 }

/-- A device response carrying a stop request. -/
def respStopW : DevResponse :=
  { respFailW with stopSet := true }

/-- The model state after one successful capture from `cfgW`. -/
def sW : CaptureState := (runIters (init cfgW false) [] [respW]).1

/-- The heap after one successful capture from `cfgW`. -/
def memW : Mem := (runIters (init cfgW false) [] [respW]).2.1

def frW3 : FrameData := { width := 1920, height := 1080, content := 11 }

def respW2 : DevResponse := { respW with frame := frW2, time := 1 }

def respW3 : DevResponse := { respW with frame := frW3, time := 2 }

def rsW : List DevResponse := [respW, respW2, respW3]

def sT : CaptureState := { init cfgW false with frame_times := [0, 1, 2] }

theorem foldl_dequeAppend {α : Type} (n : Nat) (hn : 1 ≤ n) (xs : List α) :
    xs.foldl (dequeAppend n) [] = xs.drop (xs.length - n) := by
  induction xs using List.reverseRecOn with
  | nil => simp
  | append_singleton ys x ih =>
      rw [List.foldl_append]
      simp only [List.foldl_cons, List.foldl_nil, ih]
      unfold dequeAppend
      simp only [List.length_append, List.length_cons, List.length_nil]
      by_cases h : ys.length < n
      · have h1 : ys.length - n = 0 := by omega
        have h2 : ys.length + 1 - n = 0 := by omega
        have h3 : (ys.drop 0).length = ys.length := by simp
        simp only [h1, h2, List.drop_zero]
        have h4 : ¬ (n < (ys ++ [x]).length) := by simp; omega
        simp only [List.length_append, List.length_cons, List.length_nil] at h4
        simp [h4]
      · push_neg at h
        have h1 : (ys.drop (ys.length - n)).length = n := by
          rw [List.length_drop]; omega
        simp only [h1]
        rw [if_pos (by omega : n < n + (0 + 1))]
        have h6 : n + (0 + 1) - n = 1 := by omega
        rw [h6]
        have h4 : ys.length + (0 + 1) - n ≤ ys.length := by omega
        rw [List.drop_append_of_le_length h4]
        rw [List.drop_append_of_le_length (by rw [h1]; omega), List.drop_drop]
        have h8 : ys.length - n + 1 = ys.length + (0 + 1) - n := by omega
        rw [h8]

theorem mem_dequeAppend {α : Type} {n : Nat} {l : List α} {x y : α}
    (h : y ∈ dequeAppend n l x) : y ∈ l ∨ y = x := by
  unfold dequeAppend at h
  by_cases hc : n < (l ++ [x]).length
  · simp only [hc, if_pos] at h
    have := List.mem_of_mem_drop h
    simpa using this
  · simp only [hc, if_neg, not_false_iff] at h
    simpa using h

theorem dequeAppend_ne_nil {α : Type} {n : Nat} (hn : 1 ≤ n) (l : List α) (x : α) :
    dequeAppend n l x ≠ [] := by
  unfold dequeAppend
  by_cases hc : n < (l ++ [x]).length
  · simp only [hc, if_pos]
    intro h
    have := congrArg List.length h
    rw [List.length_drop] at this
    simp at this hc
    omega
  · simp only [hc, if_neg, not_false_iff]
    simp

theorem loopIter_eq (s : CaptureState) (mem : Mem) (r : DevResponse) :
    loopIter s mem r =
      if s.capOpened = false ∧ r.openOk = false then
        (s, mem, [Action.openFailed, Action.slept s.reconnect_backoff_s])
      else readPhase (openedState s r) (openActs s r) mem r := by
  unfold loopIter openedState openActs applyCaptureSettings
  cases hO : s.capOpened <;> cases hP : r.openOk <;> simp

theorem loopIter_fields (s : CaptureState) (mem : Mem) (r : DevResponse) :
    ((loopIter s mem r).1).buffer_size = s.buffer_size
    ∧ ((loopIter s mem r).1).fps_window = s.fps_window
    ∧ ((loopIter s mem r).1).reconnect_backoff_s = s.reconnect_backoff_s
    ∧ ((loopIter s mem r).1).capture_resolution = s.capture_resolution
    ∧ ((loopIter s mem r).1).target_fps = s.target_fps
    ∧ ((loopIter s mem r).1).inference_resolution = s.inference_resolution
    ∧ ((loopIter s mem r).1).threadLive = s.threadLive
    ∧ ((loopIter s mem r).1).stopEventSet = s.stopEventSet
    ∧ ((loopIter s mem r).1).spawnCount = s.spawnCount
    ∧ ((loopIter s mem r).1).webcam_index = s.webcam_index := by
  rw [loopIter_eq]
  by_cases h : s.capOpened = false ∧ r.openOk = false
  · simp [h]
  · rw [if_neg h]
    unfold readPhase openedState
    by_cases hr : r.readOk <;> by_cases ho : s.capOpened <;> simp [hr, ho]

theorem loopIter_capOpened (s : CaptureState) (mem : Mem) (r : DevResponse) :
    ((loopIter s mem r).1).capOpened = ((s.capOpened || r.openOk) && r.readOk) := by
  rw [loopIter_eq]
  by_cases h : s.capOpened = false ∧ r.openOk = false
  · obtain ⟨h1, h2⟩ := h
    simp [h1, h2]
  · rw [if_neg h]
    unfold readPhase openedState
    by_cases hr : r.readOk <;> by_cases ho : s.capOpened <;>
      simp [hr, ho] <;> simp [ho] at h <;> simp [h]

theorem loopIter_mem (s : CaptureState) (mem : Mem) (r : DevResponse) :
    (loopIter s mem r).2.1 =
      if ((s.capOpened || r.openOk) && r.readOk) = true then mem ++ [r.frame]
      else mem := by
  rw [loopIter_eq]
  by_cases h : s.capOpened = false ∧ r.openOk = false
  · obtain ⟨h1, h2⟩ := h
    simp [h1, h2]
  · rw [if_neg h]
    unfold readPhase openedState
    by_cases hr : r.readOk <;> by_cases ho : s.capOpened <;>
      simp [hr, ho] <;> simp [ho] at h <;> simp [h]

theorem loopIter_available (s : CaptureState) (mem : Mem) (r : DevResponse) :
    ((loopIter s mem r).1).frame_available =
      (s.frame_available || ((s.capOpened || r.openOk) && r.readOk)) := by
  rw [loopIter_eq]
  by_cases h : s.capOpened = false ∧ r.openOk = false
  · obtain ⟨h1, h2⟩ := h
    simp [h1, h2]
  · rw [if_neg h]
    unfold readPhase openedState
    by_cases hr : r.readOk <;> by_cases ho : s.capOpened <;>
      simp [hr, ho] <;> simp [ho] at h <;> simp [h]

theorem loopIter_buffer (s : CaptureState) (mem : Mem) (r : DevResponse) :
    ((loopIter s mem r).1).frame_buffer =
      if ((s.capOpened || r.openOk) && r.readOk) = true then
        dequeAppend s.buffer_size s.frame_buffer mem.length
      else s.frame_buffer := by
  rw [loopIter_eq]
  by_cases h : s.capOpened = false ∧ r.openOk = false
  · obtain ⟨h1, h2⟩ := h
    simp [h1, h2]
  · rw [if_neg h]
    unfold readPhase openedState
    by_cases hr : r.readOk <;> by_cases ho : s.capOpened <;>
      simp [hr, ho] <;> simp [ho] at h <;> simp [h]

theorem loopIter_times (s : CaptureState) (mem : Mem) (r : DevResponse) :
    ((loopIter s mem r).1).frame_times =
      if ((s.capOpened || r.openOk) && r.readOk) = true then
        dequeAppend s.fps_window s.frame_times r.time
      else s.frame_times := by
  rw [loopIter_eq]
  by_cases h : s.capOpened = false ∧ r.openOk = false
  · obtain ⟨h1, h2⟩ := h
    simp [h1, h2]
  · rw [if_neg h]
    unfold readPhase openedState
    by_cases hr : r.readOk <;> by_cases ho : s.capOpened <;>
      simp [hr, ho] <;> simp [ho] at h <;> simp [h]

theorem capturedFrames_cons (opened : Bool) (r : DevResponse)
    (rs : List DevResponse) :
    capturedFrames opened (r :: rs) =
      (if ((opened || r.openOk) && r.readOk) = true then [r.frame] else [])
        ++ capturedFrames ((opened || r.openOk) && r.readOk) rs := by
  cases opened <;> cases hp : r.openOk <;> cases hr : r.readOk <;>
    simp [capturedFrames, hp, hr]

theorem openedAfter_cons (opened : Bool) (r : DevResponse)
    (rs : List DevResponse) :
    openedAfter opened (r :: rs) =
      openedAfter ((opened || r.openOk) && r.readOk) rs := by
  cases opened <;> cases hp : r.openOk <;> cases hr : r.readOk <;>
    simp [openedAfter, hp, hr]

theorem runIters_capOpened (rs : List DevResponse) :
    ∀ (s : CaptureState) (mem : Mem),
    ((runIters s mem rs).1).capOpened = openedAfter s.capOpened rs := by
  induction rs with
  | nil => intro s mem; simp [runIters, openedAfter]
  | cons r rs ih =>
      intro s mem
      simp only [runIters]
      rw [ih, openedAfter_cons, loopIter_capOpened]

theorem runIters_mem (rs : List DevResponse) :
    ∀ (s : CaptureState) (mem : Mem),
    (runIters s mem rs).2.1 = mem ++ capturedFrames s.capOpened rs := by
  induction rs with
  | nil => intro s mem; simp [runIters, capturedFrames]
  | cons r rs ih =>
      intro s mem
      simp only [runIters]
      rw [ih, capturedFrames_cons, loopIter_capOpened, loopIter_mem]
      by_cases h : ((s.capOpened || r.openOk) && r.readOk) = true <;> simp [h]

theorem runIters_available (rs : List DevResponse) :
    ∀ (s : CaptureState) (mem : Mem),
    ((runIters s mem rs).1).frame_available =
      (s.frame_available || !(capturedFrames s.capOpened rs).isEmpty) := by
  induction rs with
  | nil => intro s mem; simp [runIters, capturedFrames]
  | cons r rs ih =>
      intro s mem
      simp only [runIters]
      rw [ih, capturedFrames_cons, loopIter_capOpened, loopIter_available]
      by_cases h : ((s.capOpened || r.openOk) && r.readOk) = true <;>
        simp [h, Bool.or_assoc]

theorem runIters_fields (rs : List DevResponse) :
    ∀ (s : CaptureState) (mem : Mem),
    ((runIters s mem rs).1).buffer_size = s.buffer_size
    ∧ ((runIters s mem rs).1).fps_window = s.fps_window
    ∧ ((runIters s mem rs).1).reconnect_backoff_s = s.reconnect_backoff_s
    ∧ ((runIters s mem rs).1).capture_resolution = s.capture_resolution
    ∧ ((runIters s mem rs).1).inference_resolution = s.inference_resolution := by
  induction rs with
  | nil => intro s mem; simp [runIters]
  | cons r rs ih =>
      intro s mem
      simp only [runIters]
      obtain ⟨f1, f2, f3, f4, f5, _⟩ := loopIter_fields s mem r
      obtain ⟨g1, g2, g3, g4, g5⟩ := ih (loopIter s mem r).1 (loopIter s mem r).2.1
      exact ⟨g1.trans f1, g2.trans f2, g3.trans f3, g4.trans f4,
        g5.trans (loopIter_fields s mem r).2.2.2.2.2.1⟩

theorem runIters_buffer (rs : List DevResponse) :
    ∀ (s : CaptureState) (mem : Mem),
    s.frame_buffer = (List.range mem.length).foldl (dequeAppend s.buffer_size) [] →
    ((runIters s mem rs).1).frame_buffer =
      (List.range (runIters s mem rs).2.1.length).foldl
        (dequeAppend s.buffer_size) [] := by
  induction rs with
  | nil => intro s mem h; simpa [runIters] using h
  | cons r rs ih =>
      intro s mem h
      simp only [runIters]
      have hbs := (loopIter_fields s mem r).1
      have step : ((loopIter s mem r).1).frame_buffer =
          (List.range (loopIter s mem r).2.1.length).foldl
            (dequeAppend ((loopIter s mem r).1).buffer_size) [] := by
        rw [loopIter_buffer, loopIter_mem, hbs]
        by_cases hc : ((s.capOpened || r.openOk) && r.readOk) = true
        · simp only [hc, if_pos, List.length_append, List.length_cons,
            List.length_nil]
          rw [show mem.length + (0 + 1) = mem.length + 1 by omega,
            List.range_succ, List.foldl_append]
          simp [h]
        · simp only [hc, if_neg, not_false_iff]
          simpa using h
      have := ih (loopIter s mem r).1 (loopIter s mem r).2.1 step
      rwa [hbs] at this

theorem memLookup_append_left {m l : Mem} {r : Nat} (h : r < m.length) :
    memLookup (m ++ l) r = memLookup m r := by
  simp [memLookup, List.getD_eq_getElem?_getD, List.getElem?_append_left h]

theorem memLookup_append_self (m : Mem) (d : FrameData) :
    memLookup (m ++ [d]) m.length = d := by
  simp [memLookup, List.getD_eq_getElem?_getD]

theorem memLookup_set_ne {m : Mem} {i j : Nat} (h : i ≠ j) (d : FrameData) :
    memLookup (memSet m j d) i = memLookup m i := by
  simp [memLookup, memSet, List.getD_eq_getElem?_getD,
    List.getElem?_set_ne h.symm]

theorem Inv_init (cfg : Config) (devOpens : Bool) :
    Inv (init cfg devOpens) [] := by
  refine ⟨?_, by simp [init], by simp [init]⟩
  simp only [init]
  omega

theorem Inv_loopIter {s : CaptureState} {mem : Mem} (r : DevResponse)
    (h : Inv s mem) :
    Inv (loopIter s mem r).1 (loopIter s mem r).2.1 := by
  obtain ⟨h1, h2, h3⟩ := h
  refine ⟨?_, ?_, ?_⟩
  · rw [(loopIter_fields s mem r).1]; exact h1
  · rw [loopIter_available, loopIter_buffer]
    by_cases hc : ((s.capOpened || r.openOk) && r.readOk) = true
    · simp only [hc, if_pos]
      intro _
      exact dequeAppend_ne_nil h1 _ _
    · simpa [hc] using h2
  · rw [loopIter_buffer, loopIter_mem]
    by_cases hc : ((s.capOpened || r.openOk) && r.readOk) = true
    · simp only [hc, if_pos]
      intro x hx
      rcases mem_dequeAppend hx with hx2 | hx2
      · have := h3 x hx2
        simp only [List.length_append, List.length_cons, List.length_nil]
        omega
      · subst hx2
        simp only [List.length_append, List.length_cons, List.length_nil]
        omega
    · simp only [hc, if_neg, not_false_iff]
      exact h3

theorem Inv_runIters {rs : List DevResponse} :
    ∀ {s : CaptureState} {mem : Mem}, Inv s mem →
    Inv (runIters s mem rs).1 (runIters s mem rs).2.1 := by
  induction rs with
  | nil => intro s mem h; simpa [runIters] using h
  | cons r rs ih =>
      intro s mem h
      simp only [runIters]
      exact ih (Inv_loopIter r h)

theorem get_frame_mem_mono (s : CaptureState) (mem : Mem) :
    mem.length ≤ (get_frame s mem).2.length := by
  unfold get_frame
  by_cases h : s.frame_available = false
  · simp [h]
  · simp only [h, if_neg, not_false_iff]
    cases hl : s.frame_buffer.getLast? <;> simp

theorem gffi_mem_mono (s : CaptureState) (mem : Mem) :
    mem.length ≤ (get_frame_for_inference s mem).2.length := by
  unfold get_frame_for_inference
  have h0 := get_frame_mem_mono s mem
  cases hg : get_frame s mem with
  | mk res mem2 =>
      rw [hg] at h0
      simp only at h0
      cases res with
      | noFrame => simpa using h0
      | indexError => simpa using h0
      | frame ref =>
          dsimp only
          by_cases h1 : s.inference_resolution.1 ≤ 0 ∨ s.inference_resolution.2 ≤ 0
          · simpa [h1] using h0
          · rw [if_neg h1]
            by_cases h2 : (s.inference_resolution.1, s.inference_resolution.2) =
                s.native_resolution ∨
                (s.native_resolution.1 = 0 ∧ s.native_resolution.2 = 0)
            · simpa [h2] using h0
            · rw [if_neg h2]
              simp only [List.length_append, List.length_cons, List.length_nil]
              omega

theorem Inv_stable_mem {s : CaptureState} {mem mem2 : Mem}
    (h : Inv s mem) (hle : mem.length ≤ mem2.length) : Inv s mem2 :=
  ⟨h.1, h.2.1, fun x hx => lt_of_lt_of_le (h.2.2 x hx) hle⟩

theorem Inv_reachable {s : CaptureState} {mem : Mem}
    (h : Reachable s mem) : Inv s mem := by
  induction h with
  | base cfg devOpens => exact Inv_init cfg devOpens
  | step r _ ih => exact Inv_loopIter r ih
  | startStep _ ih =>
      obtain ⟨h1, h2, h3⟩ := ih
      unfold start
      split <;> exact ⟨h1, h2, h3⟩
  | stopStep _ ih =>
      obtain ⟨h1, h2, h3⟩ := ih
      unfold stop
      split <;> exact ⟨h1, h2, h3⟩
  | getFrameStep _ ih => exact Inv_stable_mem ih (get_frame_mem_mono _ _)
  | getInferenceStep _ ih => exact Inv_stable_mem ih (gffi_mem_mono _ _)
  | setCaptureStep res rep _ ih =>
      obtain ⟨h1, h2, h3⟩ := ih
      simp only [setCaptureResolution, applyCaptureSettings]
      split <;> exact ⟨h1, h2, h3⟩
  | setInferenceStep res _ ih => exact ih

theorem get_frame_of_not_available {s : CaptureState} (mem : Mem)
    (ha : s.frame_available = false) :
    get_frame s mem = (GetFrameResult.noFrame, mem) := by
  unfold get_frame
  simp [ha]

theorem get_frame_of_available {s : CaptureState} {mem : Mem}
    (hInv : Inv s mem) (ha : s.frame_available = true) :
    ∃ refLast, s.frame_buffer.getLast? = some refLast
      ∧ refLast < mem.length
      ∧ get_frame s mem =
          (GetFrameResult.frame mem.length, mem ++ [memLookup mem refLast]) := by
  obtain ⟨h1, h2, h3⟩ := hInv
  have hne := h2 ha
  cases hL : s.frame_buffer.getLast? with
  | none => exact absurd (List.getLast?_eq_none_iff.mp hL) hne
  | some refLast =>
      refine ⟨refLast, rfl, h3 refLast (List.mem_of_getLast?_eq_some hL), ?_⟩
      unfold get_frame
      simp [ha, hL]

theorem getFrameContent_of_available {s : CaptureState} {mem : Mem}
    (hInv : Inv s mem) (ha : s.frame_available = true) :
    getFrameContent s mem = (s.frame_buffer.getLast?).map (memLookup mem) := by
  obtain ⟨refLast, hL, hlt, heq⟩ := get_frame_of_available hInv ha
  unfold getFrameContent
  rw [heq, hL]
  simp [memLookup_append_self]

/-- C1: for every state of the FrameSource, `get_frame` returns `None` iff
no frame has ever been successfully captured; otherwise it returns a frame
equal in content to the most recently buffered frame but as a distinct
copy, so that mutating the returned value does not alter any subsequent
read of the buffer. -/
theorem spec_C1 (cfg : Config) (devOpens : Bool) (rs : List DevResponse) :
    let s := (runIters (init cfg devOpens) [] rs).1
    let mem := (runIters (init cfg devOpens) [] rs).2.1
    (((get_frame s mem).1 = GetFrameResult.noFrame) ↔
        capturedFrames devOpens rs = [])
    ∧ ∀ ref mem2, get_frame s mem = (GetFrameResult.frame ref, mem2) →
        ref ∉ s.frame_buffer
        ∧ some (memLookup mem2 ref) =
            (s.frame_buffer.getLast?).map (memLookup mem)
        ∧ ∀ d : FrameData,
            getFrameContent s (memSet mem2 ref d) = getFrameContent s mem := by
  intro s mem
  have hInv : Inv s mem := Inv_runIters (Inv_init cfg devOpens)
  have hAvail : s.frame_available = !(capturedFrames devOpens rs).isEmpty := by
    have h := runIters_available rs (init cfg devOpens) []
    simpa [init] using h
  constructor
  · cases ha : s.frame_available with
    | false =>
        rw [get_frame_of_not_available mem ha]
        rw [ha] at hAvail
        have hnil : capturedFrames devOpens rs = [] := by
          cases hE : capturedFrames devOpens rs with
          | nil => rfl
          | cons a l => rw [hE] at hAvail; simp at hAvail
        simp [hnil]
    | true =>
        obtain ⟨refLast, hL, hlt, hgf⟩ := get_frame_of_available hInv ha
        rw [hgf]
        rw [ha] at hAvail
        constructor
        · intro h; exact absurd h (by simp)
        · intro h
          rw [h] at hAvail
          simp at hAvail
  · intro ref mem2 heq
    cases ha : s.frame_available with
    | false =>
        rw [get_frame_of_not_available mem ha] at heq
        simp at heq
    | true =>
        obtain ⟨refLast, hL, hlt, hgf⟩ := get_frame_of_available hInv ha
        rw [hgf] at heq
        obtain ⟨h1, h2⟩ := Prod.mk.injEq .. ▸ heq
        have href : ref = mem.length := by
          cases heq
          rfl
        have hmem2 : mem2 = mem ++ [memLookup mem refLast] := by
          cases heq
          rfl
        subst href hmem2
        refine ⟨?_, ?_, ?_⟩
        · intro hin
          exact absurd (hInv.2.2 _ hin) (lt_irrefl _)
        · rw [hL, memLookup_append_self]
          rfl
        · intro d
          have hlen2 : mem.length ≤ (memSet (mem ++ [memLookup mem refLast])
              mem.length d).length := by
            simp [memSet]
          have hInv2 : Inv s (memSet (mem ++ [memLookup mem refLast])
              mem.length d) := Inv_stable_mem hInv hlen2
          rw [getFrameContent_of_available hInv2 ha,
            getFrameContent_of_available hInv ha, hL]
          simp only [Option.map_some']
          rw [memLookup_set_ne (Nat.ne_of_lt hlt) d,
            memLookup_append_left hlt]
  

/-- C1 witness: one successful capture from the concrete configuration;
the returned copy is distinct from the buffered reference, equal in
content, and overwriting the copy leaves the next read unchanged. -/
theorem spec_C1_witness :
    (1 : Nat) ∉ sW.frame_buffer
    ∧ some (memLookup [frW, frW] 1) =
        (sW.frame_buffer.getLast?).map (memLookup memW)
    ∧ getFrameContent sW (memSet [frW, frW] 1 frW2) =
        getFrameContent sW memW := by
  have h := (spec_C1 cfgW false [respW]).2 1 [frW, frW] (by rfl)
  exact ⟨h.1, h.2.1, h.2.2 frW2⟩

theorem map_memLookup_range (m : Mem) :
    (List.range m.length).map (memLookup m) = m := by
  apply List.ext_getElem
  · simp
  · intro i h1 h2
    simp only [List.getElem_map, List.getElem_range]
    rw [memLookup, List.getD_eq_getElem m default h2]

theorem getLast?_drop_of_lt {α : Type} (l : List α) (j : Nat)
    (h : j < l.length) : (l.drop j).getLast? = l.getLast? := by
  rw [List.getLast?_eq_getElem?, List.getLast?_eq_getElem?,
    List.getElem?_drop, List.length_drop]
  congr 1
  omega

theorem getLast?_range (k : Nat) (h : 1 ≤ k) :
    (List.range k).getLast? = some (k - 1) := by
  have hk : k = (k - 1) + 1 := by omega
  conv_lhs => rw [hk]
  rw [List.range_succ, List.getLast?_concat]

/-- C2: for every buffer capacity (clamped to at least 1), after the
worker captures more frames than the capacity, the buffer holds exactly
the last `buffer_size` captured frames in arrival order, its length never
exceeds the capacity, and the most-recent read equals the last captured
frame. -/
theorem spec_C2 (cfg : Config) (devOpens : Bool) (rs : List DevResponse) :
    let sInit := init cfg devOpens
    let s := (runIters sInit [] rs).1
    let mem := (runIters sInit [] rs).2.1
    let fs := capturedFrames devOpens rs
    s.frame_buffer.length ≤ sInit.buffer_size
    ∧ (sInit.buffer_size < fs.length →
        s.frame_buffer.map (memLookup mem) =
          fs.drop (fs.length - sInit.buffer_size))
    ∧ getFrameContent s mem = fs.getLast? := by
  intro sInit s mem fs
  have hbs : 1 ≤ sInit.buffer_size := (Inv_init cfg devOpens).1
  have hmem : mem = fs := by
    have h := runIters_mem rs sInit []
    simpa [init] using h
  have hbuf : s.frame_buffer =
      (List.range mem.length).foldl (dequeAppend sInit.buffer_size) [] := by
    refine runIters_buffer rs sInit [] ?_
    simp only [show sInit = init cfg devOpens from rfl]
    simp [init]
  have hAvail : s.frame_available = !fs.isEmpty := by
    have h := runIters_available rs sInit []
    simpa [init] using h
  rw [foldl_dequeAppend _ hbs] at hbuf
  refine ⟨?_, ?_, ?_⟩
  · rw [hbuf, List.length_drop, List.length_range]
    omega
  · intro hk
    rw [hbuf, List.map_drop, map_memLookup_range, hmem, List.length_range]
  · cases hE : fs.isEmpty with
    | true =>
        have hnil : fs = [] := List.isEmpty_iff.mp hE
        rw [hE] at hAvail
        simp only [Bool.not_true] at hAvail
        unfold getFrameContent
        rw [get_frame_of_not_available mem hAvail, hnil]
        rfl
    | false =>
        rw [hE] at hAvail
        simp only [Bool.not_false] at hAvail
        have hInv : Inv s mem := Inv_runIters (Inv_init cfg devOpens)
        have hk : 1 ≤ fs.length := by
          cases hfs : fs with
          | nil => rw [hfs] at hE; simp at hE
          | cons a l => simp [hfs]
        rw [getFrameContent_of_available hInv hAvail, hbuf, hmem]
        have hlt : (List.range fs.length).length - sInit.buffer_size <
            (List.range fs.length).length := by
          rw [List.length_range]
          omega
        rw [getLast?_drop_of_lt _ _ hlt, getLast?_range fs.length hk]
        simp only [Option.map_some']
        rw [List.getLast?_eq_getElem?, memLookup,
          List.getD_eq_getElem fs default (by omega),
          List.getElem?_eq_getElem (by omega)]

/-- C2 witness: capacity 2, three captures; the buffer maps to the last
two captured frames and the most-recent read is the third frame. -/
theorem spec_C2_witness :
    (runIters (init cfgW false) [] rsW).1.frame_buffer.length ≤
        (init cfgW false).buffer_size
    ∧ (runIters (init cfgW false) [] rsW).1.frame_buffer.map
        (memLookup (runIters (init cfgW false) [] rsW).2.1) =
      (capturedFrames false rsW).drop
        ((capturedFrames false rsW).length - (init cfgW false).buffer_size)
    ∧ getFrameContent (runIters (init cfgW false) [] rsW).1
        (runIters (init cfgW false) [] rsW).2.1 =
      (capturedFrames false rsW).getLast? := by
  have h := spec_C2 cfgW false rsW
  exact ⟨h.1, h.2.1 (by decide), h.2.2⟩

/-- C3: the FPS reading is zero when the window holds fewer than two
timestamps or when newest minus oldest is non-positive, and otherwise
equals (count - 1) divided by (newest - oldest); for the window
[0, 1, 2] it equals 1. -/
theorem spec_C3 (s : CaptureState) :
    (s.frame_times.length < 2 → fps_actual s = 0)
    ∧ (s.frame_times.getLastD 0 - s.frame_times.headD 0 ≤ 0 →
        fps_actual s = 0)
    ∧ (2 ≤ s.frame_times.length →
        0 < s.frame_times.getLastD 0 - s.frame_times.headD 0 →
        fps_actual s = ((s.frame_times.length : ℚ) - 1) /
          (s.frame_times.getLastD 0 - s.frame_times.headD 0))
    ∧ (s.frame_times = [0, 1, 2] → fps_actual s = 1) := by
  refine ⟨?_, ?_, ?_, ?_⟩
  · intro h
    simp [fps_actual, h]
  · intro h
    unfold fps_actual
    by_cases h2 : s.frame_times.length < 2
    · simp [h2]
    · rw [if_neg h2, if_pos h]
  · intro h1 h2
    unfold fps_actual
    rw [if_neg (by omega), if_neg (by exact not_le.mpr h2)]
  · intro h
    unfold fps_actual
    rw [h]
    norm_num

/-- C3 witness: the concrete window [0, 1, 2] yields an FPS of 1. -/
theorem spec_C3_witness : fps_actual sT = 1 :=
  (spec_C3 sT).2.2.2 rfl

/-- C4: the inference read returns the frame unmodified when a target
dimension is non-positive, when the target equals the known native
resolution, or when the native resolution is unknown (0, 0); with any
other positive target it returns a frame of exactly that size; it is
absent exactly when `get_frame` is. -/
theorem spec_C4 (s : CaptureState) (mem : Mem) :
    ((get_frame_for_inference s mem).1 = GetFrameResult.noFrame ↔
        (get_frame s mem).1 = GetFrameResult.noFrame)
    ∧ (s.inference_resolution.1 ≤ 0 ∨ s.inference_resolution.2 ≤ 0 →
        get_frame_for_inference s mem = get_frame s mem)
    ∧ (s.inference_resolution = s.native_resolution ∨
        s.native_resolution = (0, 0) →
        get_frame_for_inference s mem = get_frame s mem)
    ∧ (0 < s.inference_resolution.1 → 0 < s.inference_resolution.2 →
        s.inference_resolution ≠ s.native_resolution →
        s.native_resolution ≠ (0, 0) →
        ∀ ref mem2,
          get_frame_for_inference s mem = (GetFrameResult.frame ref, mem2) →
          (memLookup mem2 ref).width = s.inference_resolution.1 ∧
          (memLookup mem2 ref).height = s.inference_resolution.2) := by
  unfold get_frame_for_inference
  cases hg : get_frame s mem with
  | mk res mem1 =>
      cases res with
      | noFrame => exact ⟨by simp, fun _ => rfl, fun _ => rfl, by simp⟩
      | indexError => exact ⟨by simp, fun _ => rfl, fun _ => rfl, by simp⟩
      | frame ref0 =>
          refine ⟨?_, ?_, ?_, ?_⟩
          · dsimp only
            by_cases h1 : s.inference_resolution.1 ≤ 0 ∨
                s.inference_resolution.2 ≤ 0
            · simp [h1]
            · rw [if_neg h1]
              by_cases h2 : (s.inference_resolution.1,
                  s.inference_resolution.2) = s.native_resolution ∨
                  (s.native_resolution.1 = 0 ∧ s.native_resolution.2 = 0)
              · simp [h2]
              · rw [if_neg h2]
                simp
          · intro h1
            dsimp only
            rw [if_pos h1]
          · intro h2
            dsimp only
            by_cases h1 : s.inference_resolution.1 ≤ 0 ∨
                s.inference_resolution.2 ≤ 0
            · rw [if_pos h1]
            · rw [if_neg h1, if_pos]
              rcases h2 with h2 | h2
              · left
                rw [← h2]
              · right
                rw [h2]
                exact ⟨rfl, rfl⟩
          · intro hw hh hne hn0 ref mem2 heq
            dsimp only at heq
            rw [if_neg (by push_neg; omega)] at heq
            rw [if_neg ?hcond] at heq
            case hcond =>
              push_neg
              constructor
              · intro hc
                exact absurd (by rw [← hc]) hne
              · intro hc
                exact fun hc2 => hn0 (Prod.ext hc hc2)
            have href : ref = mem1.length := by
              cases heq
              rfl
            have hmem2 : mem2 = mem1 ++
                [cvResize (memLookup mem1 ref0) s.inference_resolution.1
                  s.inference_resolution.2] := by
              cases heq
              rfl
            subst href hmem2
            rw [memLookup_append_self]
            exact ⟨rfl, rfl⟩

/-- C4 witness: with native resolution (1920, 1080) and inference
resolution (640, 360), the returned frame has exactly the inference
size. -/
theorem spec_C4_witness :
    (memLookup [frW, frW, cvResize frW 640 360] 2).width =
        sW.inference_resolution.1
    ∧ (memLookup [frW, frW, cvResize frW 640 360] 2).height =
        sW.inference_resolution.2 :=
  (spec_C4 sW memW).2.2.2 (by decide) (by decide) (by decide) (by decide)
    2 [frW, frW, cvResize frW 640 360] (by rfl)

/-- C5: `start` while the worker is alive is a no-op, two successive
starts from a stopped state spawn exactly one worker, `stop` releases the
device, a second `stop` changes nothing further, and `stop` without a
prior `start` still releases the handle. -/
theorem spec_C5 (s : CaptureState) :
    (s.threadLive = true → start s = s)
    ∧ start (start s) = start s
    ∧ (s.threadLive = false →
        (start (start s)).spawnCount = s.spawnCount + 1
        ∧ (start (start s)).threadLive = true)
    ∧ (stop s).capOpened = false
    ∧ stop (stop s) = stop s
    ∧ (s.threadLive = false → stop s = { s with capOpened := false }) := by
  refine ⟨?_, ?_, ?_, ?_, ?_, ?_⟩
  · intro h
    simp [start, h]
  · by_cases h : s.threadLive = true
    · simp [start, h]
    · simp only [Bool.not_eq_true] at h
      simp [start, h]
  · intro h
    simp [start, h]
  · unfold stop
    split <;> rfl
  · unfold stop
    by_cases h : s.threadLive = true
    · simp [h]
    · simp only [Bool.not_eq_true] at h
      simp [h]
  · intro h
    simp [stop, h]

/-- C5 witness: starting twice from the fresh configuration spawns one
worker; stopping twice keeps the device released. -/
theorem spec_C5_witness :
    (start (start (init cfgW false))).spawnCount =
        (init cfgW false).spawnCount + 1
    ∧ (stop (init cfgW false)).capOpened = false
    ∧ (start (start (init cfgW false))).threadLive = true := by
  have h := spec_C5 (init cfgW false)
  exact ⟨(h.2.2.1 (by decide)).1, h.2.2.2.1, (h.2.2.1 (by decide)).2⟩

/-- C10: `stop` leaves the frame buffer, timestamp window and
availability flag unchanged, so reads and the FPS measurement after
`stop` agree with those before. -/
theorem spec_C10 (s : CaptureState) (mem : Mem) :
    (stop s).frame_buffer = s.frame_buffer
    ∧ (stop s).frame_times = s.frame_times
    ∧ (stop s).frame_available = s.frame_available
    ∧ get_frame (stop s) mem = get_frame s mem
    ∧ getFrameContent (stop s) mem = getFrameContent s mem
    ∧ fps_actual (stop s) = fps_actual s
    ∧ (s.frame_available = true →
        (get_frame (stop s) mem).1 ≠ GetFrameResult.noFrame) := by
  have hb : (stop s).frame_buffer = s.frame_buffer := by
    unfold stop; split <;> rfl
  have ht : (stop s).frame_times = s.frame_times := by
    unfold stop; split <;> rfl
  have ha : (stop s).frame_available = s.frame_available := by
    unfold stop; split <;> rfl
  have hg : get_frame (stop s) mem = get_frame s mem := by
    unfold get_frame
    rw [hb, ha]
  refine ⟨hb, ht, ha, hg, ?_, ?_, ?_⟩
  · unfold getFrameContent
    rw [hg]
  · unfold fps_actual
    rw [ht]
  · intro h
    rw [hg]
    unfold get_frame
    rw [h]
    simp only [Bool.true_eq_false, if_neg, not_false_iff]
    cases s.frame_buffer.getLast? <;> simp

/-- C10 witness: after one capture, stopping does not change the read or
the FPS value. -/
theorem spec_C10_witness :
    getFrameContent (stop sW) memW = getFrameContent sW memW
    ∧ fps_actual (stop sW) = fps_actual sW
    ∧ (get_frame (stop sW) memW).1 ≠ GetFrameResult.noFrame := by
  have h := spec_C10 sW memW
  exact ⟨h.2.2.2.2.1, h.2.2.2.2.2.1, h.2.2.2.2.2.2 (by decide)⟩

theorem mem_applyCaptureSettings (s : CaptureState) (rep : Int × Int)
    (a : Action) :
    a ∈ (applyCaptureSettings s rep).2 ↔
      (0 < s.capture_resolution.1 ∧
        a = Action.setProp CAP_PROP_FRAME_WIDTH (s.capture_resolution.1 : ℚ))
      ∨ (0 < s.capture_resolution.2 ∧
        a = Action.setProp CAP_PROP_FRAME_HEIGHT (s.capture_resolution.2 : ℚ))
      ∨ (0 < s.target_fps ∧ a = Action.setProp CAP_PROP_FPS s.target_fps) := by
  unfold applyCaptureSettings
  by_cases h1 : 0 < s.capture_resolution.1 <;>
    by_cases h2 : 0 < s.capture_resolution.2 <;>
      by_cases h3 : 0 < s.target_fps <;>
        simp [h1, h2, h3]

/-- C8: applying capture settings requests only positive width, height
and fps values on the device, requests exactly the positive configured
values, and afterwards the native resolution equals the readback from the
device, not the requested values. -/
theorem spec_C8 (s : CaptureState) (reported : Int × Int) :
    ((applyCaptureSettings s reported).1).native_resolution = reported
    ∧ (applyCaptureSettings s reported).1 =
        { s with native_resolution := reported }
    ∧ (∀ prop v, Action.setProp prop v ∈ (applyCaptureSettings s reported).2 →
        0 < v)
    ∧ (0 < s.capture_resolution.1 ↔
        Action.setProp CAP_PROP_FRAME_WIDTH (s.capture_resolution.1 : ℚ) ∈
          (applyCaptureSettings s reported).2)
    ∧ (0 < s.capture_resolution.2 ↔
        Action.setProp CAP_PROP_FRAME_HEIGHT (s.capture_resolution.2 : ℚ) ∈
          (applyCaptureSettings s reported).2)
    ∧ (0 < s.target_fps ↔
        Action.setProp CAP_PROP_FPS s.target_fps ∈
          (applyCaptureSettings s reported).2) := by
  refine ⟨rfl, rfl, ?_, ?_, ?_, ?_⟩
  · intro prop v hv
    rcases (mem_applyCaptureSettings s reported _).mp hv with
      ⟨hp, he⟩ | ⟨hp, he⟩ | ⟨hp, he⟩ <;>
      rw [Action.setProp.injEq] at he
    · rw [he.2]
      exact_mod_cast hp
    · rw [he.2]
      exact_mod_cast hp
    · rw [he.2]
      exact hp
  · constructor
    · intro hp
      exact (mem_applyCaptureSettings s reported _).mpr (Or.inl ⟨hp, rfl⟩)
    · intro hv
      rcases (mem_applyCaptureSettings s reported _).mp hv with
        ⟨hp, _⟩ | ⟨_, he⟩ | ⟨_, he⟩
      · exact hp
      · rw [Action.setProp.injEq] at he
        exact absurd he.1 (by decide)
      · rw [Action.setProp.injEq] at he
        exact absurd he.1 (by decide)
  · constructor
    · intro hp
      exact (mem_applyCaptureSettings s reported _).mpr (Or.inr (Or.inl ⟨hp, rfl⟩))
    · intro hv
      rcases (mem_applyCaptureSettings s reported _).mp hv with
        ⟨_, he⟩ | ⟨hp, _⟩ | ⟨_, he⟩
      · rw [Action.setProp.injEq] at he
        exact absurd he.1 (by decide)
      · exact hp
      · rw [Action.setProp.injEq] at he
        exact absurd he.1 (by decide)
  · constructor
    · intro hp
      exact (mem_applyCaptureSettings s reported _).mpr (Or.inr (Or.inr ⟨hp, rfl⟩))
    · intro hv
      rcases (mem_applyCaptureSettings s reported _).mp hv with
        ⟨_, he⟩ | ⟨_, he⟩ | ⟨hp, _⟩
      · rw [Action.setProp.injEq] at he
        exact absurd he.1 (by decide)
      · rw [Action.setProp.injEq] at he
        exact absurd he.1 (by decide)
      · exact hp

/-- C8 witness: the concrete configuration requests 4096, 2160 and 30 on
the device and records the readback (1920, 1080) as native, which differs
from the request. -/
theorem spec_C8_witness :
    ((applyCaptureSettings (init cfgW true) (1920, 1080)).1).native_resolution
        = (1920, 1080)
    ∧ Action.setProp CAP_PROP_FRAME_WIDTH ((init cfgW true).capture_resolution.1 : ℚ) ∈
        (applyCaptureSettings (init cfgW true) (1920, 1080)).2 := by
  have h := spec_C8 (init cfgW true) (1920, 1080)
  exact ⟨h.1, h.2.2.2.1.mp (by decide)⟩

/-- C9: in every reachable state, a set availability flag implies a
non-empty frame buffer, so `get_frame`'s access to the last element never
fails; the flag survives every operation, and an iteration that sets it
appends a frame to the heap and the deque in the same step. -/
theorem spec_C9 :
    (∀ s mem, Reachable s mem → s.frame_available = true →
      s.frame_buffer ≠ [] ∧ (get_frame s mem).1 ≠ GetFrameResult.indexError)
    ∧ (∀ (s : CaptureState) (mem : Mem) (r : DevResponse),
        s.frame_available = true →
        ((loopIter s mem r).1).frame_available = true)
    ∧ (∀ s : CaptureState, (start s).frame_available = s.frame_available
        ∧ (stop s).frame_available = s.frame_available)
    ∧ (∀ (s : CaptureState) (res rep : Int × Int),
        ((setCaptureResolution s res rep).1).frame_available =
          s.frame_available
        ∧ (setInferenceResolution s res).frame_available =
          s.frame_available)
    ∧ (∀ (s : CaptureState) (mem : Mem) (r : DevResponse),
        ((loopIter s mem r).1).frame_available = true →
        s.frame_available = true ∨
          ((loopIter s mem r).2.1 = mem ++ [r.frame]
            ∧ ((loopIter s mem r).1).frame_buffer =
                dequeAppend s.buffer_size s.frame_buffer mem.length)) := by
  refine ⟨?_, ?_, ?_, ?_, ?_⟩
  · intro s mem hr ha
    have hInv := Inv_reachable hr
    obtain ⟨refLast, hL, hlt, hgf⟩ := get_frame_of_available hInv ha
    refine ⟨hInv.2.1 ha, ?_⟩
    rw [hgf]
    simp
  · intro s mem r ha
    rw [loopIter_available, ha]
    simp
  · intro s
    constructor
    · unfold start; split <;> rfl
    · unfold stop; split <;> rfl
  · intro s res rep
    constructor
    · unfold setCaptureResolution applyCaptureSettings
      dsimp only
      split <;> rfl
    · rfl
  · intro s mem r ha
    rw [loopIter_available] at ha
    cases hc : ((s.capOpened || r.openOk) && r.readOk) with
    | false =>
        rw [hc] at ha
        simp at ha
        exact Or.inl ha
    | true =>
        refine Or.inr ⟨?_, ?_⟩
        · rw [loopIter_mem, hc]
          rfl
        · rw [loopIter_buffer, hc]
          rfl

/-- C9 witness: the state after one capture is reachable, its flag is
set, its buffer is non-empty and the read does not fail. -/
theorem spec_C9_witness :
    sW.frame_buffer ≠ []
    ∧ (get_frame sW memW).1 ≠ GetFrameResult.indexError :=
  spec_C9.1 sW memW (Reachable.step respW (Reachable.base cfgW false))
    (by decide)

theorem failsOk_append (b : ℚ) (l1 l2 : List Action) :
    (failsOk b l1 = true → failsOk b l2 = true →
      failsOk b (l1 ++ l2) = true)
    ∧ (sleptBeforeNext b l1 = true → failsOk b l2 = true →
      sleptBeforeNext b (l1 ++ l2) = true) := by
  induction l1 with
  | nil =>
      constructor
      · intro _ h2
        simpa using h2
      · intro h1 _
        simp [sleptBeforeNext] at h1
  | cons a rest ih =>
      constructor
      · intro h1 h2
        cases a <;> simp only [List.cons_append, failsOk] at h1 ⊢
        · exact ih.2 h1 h2
        · exact ih.2 h1 h2
        · exact ih.1 h1 h2
        · exact ih.1 h1 h2
        · exact ih.1 h1 h2
        · exact ih.1 h1 h2
      · intro h1 h2
        cases a <;> simp only [List.cons_append, sleptBeforeNext] at h1 ⊢
        case openFailed => exact h1
        case readFailed => exact h1
        case released => exact ih.2 h1 h2
        case slept d =>
          by_cases hd : d = b
          · rw [if_pos hd] at h1 ⊢
            exact ih.1 h1 h2
          · rw [if_neg hd] at h1 ⊢
            exact ih.2 h1 h2
        case setProp p v => exact ih.2 h1 h2
        case appended => exact ih.2 h1 h2

theorem failsOk_setProps_append (b : ℚ) (l tail : List Action)
    (h : ∀ a ∈ l, ∃ p v, a = Action.setProp p v) :
    failsOk b (l ++ tail) = failsOk b tail := by
  induction l with
  | nil => simp
  | cons a rest ih =>
      obtain ⟨p, v, rfl⟩ := h a (List.mem_cons_self a rest)
      simp only [List.cons_append, failsOk]
      exact ih fun a2 ha2 => h a2 (List.mem_cons_of_mem _ ha2)

theorem openActs_setProps (s : CaptureState) (r : DevResponse) :
    ∀ a ∈ openActs s r, ∃ p v, a = Action.setProp p v := by
  intro a ha
  unfold openActs at ha
  by_cases h : s.capOpened = true
  · rw [if_pos h] at ha
    simp at ha
  · rw [if_neg h] at ha
    rcases (mem_applyCaptureSettings _ _ _).mp ha with
      ⟨_, he⟩ | ⟨_, he⟩ | ⟨_, he⟩ <;> exact ⟨_, _, he⟩

theorem loopIter_acts (s : CaptureState) (mem : Mem) (r : DevResponse) :
    (s.capOpened = false ∧ r.openOk = false ∧
      (loopIter s mem r).2.2 =
        [Action.openFailed, Action.slept s.reconnect_backoff_s])
    ∨ ((s.capOpened || r.openOk) = true ∧ r.readOk = false ∧
      (loopIter s mem r).2.2 = openActs s r ++
        [Action.readFailed, Action.released,
          Action.slept s.reconnect_backoff_s])
    ∨ ((s.capOpened || r.openOk) = true ∧ r.readOk = true ∧
      (loopIter s mem r).2.2 = openActs s r ++ [Action.appended]) := by
  rw [loopIter_eq]
  by_cases h : s.capOpened = false ∧ r.openOk = false
  · exact Or.inl ⟨h.1, h.2, by rw [if_pos h]⟩
  · have hOr : (s.capOpened || r.openOk) = true := by
      cases hc : s.capOpened
      · cases hp : r.openOk
        · exact absurd ⟨hc, hp⟩ h
        · simp
      · simp
    rw [if_neg h]
    unfold readPhase
    cases hr : r.readOk with
    | false =>
        refine Or.inr (Or.inl ⟨hOr, rfl, ?_⟩)
        have hb : (openedState s r).reconnect_backoff_s =
            s.reconnect_backoff_s := by
          unfold openedState; split <;> rfl
        simp [hb]
    | true => exact Or.inr (Or.inr ⟨hOr, rfl, by simp⟩)

/-- C6: an iteration whose device open or frame read fails performs no
frame work (buffer, window and heap untouched) and ends with a backoff
sleep; accordingly, across a whole run no two failed attempts occur
without an intervening sleep of the backoff duration. -/
theorem spec_C6 :
    (∀ (s : CaptureState) (mem : Mem) (r : DevResponse),
      (s.capOpened = false ∧ r.openOk = false) ∨ r.readOk = false →
        ((loopIter s mem r).1).frame_buffer = s.frame_buffer
        ∧ ((loopIter s mem r).1).frame_times = s.frame_times
        ∧ (loopIter s mem r).2.1 = mem
        ∧ ((loopIter s mem r).2.2).getLast? =
            some (Action.slept s.reconnect_backoff_s))
    ∧ ∀ (s : CaptureState) (mem : Mem) (rs : List DevResponse),
        failsOk s.reconnect_backoff_s (runIters s mem rs).2.2 = true := by
  constructor
  · intro s mem r h
    have hc : ((s.capOpened || r.openOk) && r.readOk) = false := by
      rcases h with ⟨h1, h2⟩ | h1
      · rw [h1, h2]
        rfl
      · rw [h1]
        simp
    refine ⟨by rw [loopIter_buffer, hc]; rfl, by rw [loopIter_times, hc]; rfl,
      by rw [loopIter_mem, hc]; rfl, ?_⟩
    rcases loopIter_acts s mem r with ⟨_, _, he⟩ | ⟨_, _, he⟩ | ⟨hOr, hr, he⟩
    · rw [he]
      rfl
    · rw [he, List.getLast?_append]
      rfl
    · exfalso
      rcases h with ⟨h1, h2⟩ | h1
      · rw [h1, h2] at hOr
        simp at hOr
      · rw [h1] at hr
        simp at hr
  · intro s mem rs
    induction rs generalizing s mem with
    | nil => simp [runIters, failsOk]
    | cons r rs ih =>
        simp only [runIters]
        have hback := (loopIter_fields s mem r).2.2.1
        have hiter : failsOk s.reconnect_backoff_s (loopIter s mem r).2.2 =
            true := by
          rcases loopIter_acts s mem r with ⟨_, _, he⟩ | ⟨_, _, he⟩ |
            ⟨_, _, he⟩ <;> rw [he]
          · simp [failsOk, sleptBeforeNext]
          · rw [failsOk_setProps_append _ _ _ (openActs_setProps s r)]
            simp [failsOk, sleptBeforeNext]
          · rw [failsOk_setProps_append _ _ _ (openActs_setProps s r)]
            simp [failsOk]
        have hrec := ih (loopIter s mem r).1 (loopIter s mem r).2.1
        rw [hback] at hrec
        exact (failsOk_append _ _ _).1 hiter hrec

/-- C6 witness: a failed open on the fresh configuration leaves the
buffer untouched and ends the iteration with the backoff sleep. -/
theorem spec_C6_witness :
    ((loopIter (init cfgW false) [] respFailW).1).frame_buffer =
        (init cfgW false).frame_buffer
    ∧ ((loopIter (init cfgW false) [] respFailW).2.2).getLast? =
        some (Action.slept (init cfgW false).reconnect_backoff_s) := by
  have h := spec_C6.1 (init cfgW false) [] respFailW (Or.inl ⟨rfl, rfl⟩)
  exact ⟨h.1, h.2.2.2⟩

theorem loopIter_acts_ne_released (s : CaptureState) (mem : Mem)
    (r : DevResponse) :
    ((loopIter s mem r).2.2).getLast? ≠ some Action.released := by
  rcases loopIter_acts s mem r with ⟨_, _, he⟩ | ⟨_, _, he⟩ | ⟨_, _, he⟩ <;>
    rw [he]
  · simp
  · rw [List.getLast?_append]
    simp
  · rw [List.getLast?_append]
    simp

theorem isSome_map_opt {α β : Type} (f : α → β) (o : Option α) :
    (o.map f).isSome = o.isSome := by
  cases o <;> rfl

theorem captureLoop_cons_stopSet {s : CaptureState} {mem : Mem}
    {r : DevResponse} {rs : List DevResponse} (h : r.stopSet = true) :
    captureLoop s mem (r :: rs) =
      some ({ s with stopEventSet := true, capOpened := false }, mem,
        [Action.released]) := by
  conv_lhs => unfold captureLoop
  rw [h]
  rfl

theorem captureLoop_cons_stopEvent {s : CaptureState} {mem : Mem}
    {r : DevResponse} {rs : List DevResponse} (hr : r.stopSet = false)
    (hs : s.stopEventSet = true) :
    captureLoop s mem (r :: rs) =
      some ({ s with capOpened := false }, mem, [Action.released]) := by
  conv_lhs => unfold captureLoop
  rw [hr]
  rw [if_neg (show ¬(false = true) from by simp)]
  rw [if_pos hs]

theorem captureLoop_cons_go {s : CaptureState} {mem : Mem}
    {r : DevResponse} {rs : List DevResponse} (hr : r.stopSet = false)
    (hs : s.stopEventSet = false) :
    captureLoop s mem (r :: rs) =
      (captureLoop (loopIter s mem r).1 (loopIter s mem r).2.1 rs).map
        fun q => (q.1, q.2.1, (loopIter s mem r).2.2 ++ q.2.2) := by
  conv_lhs => unfold captureLoop
  rw [hr]
  rw [if_neg (show ¬(false = true) from by simp)]
  rw [if_neg (show ¬(s.stopEventSet = true) from by rw [hs]; simp)]

/-- C7: the acquisition loop exits exactly when the stop signal is
observed — never on open or read failures — and on exit the device
handle is released exactly once, as the single trailing release of the
action log. -/
theorem spec_C7 (s : CaptureState) (mem : Mem) (rs : List DevResponse) :
    ((captureLoop s mem rs).isSome =
      (s.stopEventSet || rs.any fun r => r.stopSet))
    ∧ ∀ sf mf log, captureLoop s mem rs = some (sf, mf, log) →
        sf.capOpened = false
        ∧ ∃ body, log = body ++ [Action.released]
          ∧ body.getLast? ≠ some Action.released := by
  induction rs generalizing s mem with
  | nil =>
      constructor
      · unfold captureLoop
        by_cases h : s.stopEventSet = true
        · simp [h]
        · simp only [Bool.not_eq_true] at h
          simp [h]
      · intro sf mf log heq
        unfold captureLoop at heq
        by_cases h : s.stopEventSet = true
        · rw [if_pos h] at heq
          cases heq
          exact ⟨rfl, [], rfl, by simp⟩
        · rw [if_neg h] at heq
          cases heq
  | cons r rs ih =>
      cases hr : r.stopSet with
      | true =>
          constructor
          · rw [captureLoop_cons_stopSet hr]
            simp [hr]
          · intro sf mf log heq
            rw [captureLoop_cons_stopSet hr] at heq
            cases heq
            exact ⟨rfl, [], rfl, by simp⟩
      | false =>
          by_cases hs : s.stopEventSet = true
          · constructor
            · rw [captureLoop_cons_stopEvent hr hs]
              simp [hs]
            · intro sf mf log heq
              rw [captureLoop_cons_stopEvent hr hs] at heq
              cases heq
              exact ⟨rfl, [], rfl, by simp⟩
          · simp only [Bool.not_eq_true] at hs
            have hs0 := (loopIter_fields s mem r).2.2.2.2.2.2.2.1
            constructor
            · rw [captureLoop_cons_go hr hs]
              rw [isSome_map_opt]
              rw [(ih _ _).1, hs0, hs]
              simp [hr]
            · intro sf mf log heq
              rw [captureLoop_cons_go hr hs] at heq
              obtain ⟨⟨q1, q2, q3⟩, hq, hf⟩ := Option.map_eq_some'.mp heq
              obtain ⟨hcap, body2, hlog2, hlast2⟩ := (ih _ _).2 q1 q2 q3 hq
              have hsf : sf = q1 := by
                cases hf
                rfl
              have hlog : log = (loopIter s mem r).2.2 ++ q3 := by
                cases hf
                rfl
              subst hsf hlog
              refine ⟨hcap, (loopIter s mem r).2.2 ++ body2, ?_, ?_⟩
              · rw [hlog2, List.append_assoc]
              · rw [List.getLast?_append]
                cases hb : body2.getLast? with
                | none =>
                    rw [Option.none_or]
                    exact loopIter_acts_ne_released s mem r
                | some x =>
                    intro hcon
                    rw [show ((some x).or
                        ((loopIter s mem r).2.2).getLast?) = some x from
                      rfl] at hcon
                    rw [hcon] at hb
                    exact hlast2 hb

/-- C7 witness: a stop request in the first iteration makes the loop exit
with the device released and a single trailing release in the log. -/
theorem spec_C7_witness :
    (captureLoop (init cfgW false) [] [respStopW]).isSome =
      ((init cfgW false).stopEventSet || [respStopW].any fun r => r.stopSet)
    ∧ ({ init cfgW false with
          stopEventSet := true
          capOpened := false } : CaptureState).capOpened = false
    ∧ ∃ body, [Action.released] = body ++ [Action.released]
        ∧ body.getLast? ≠ some Action.released := by
  have h := spec_C7 (init cfgW false) [] [respStopW]
  have h2 := h.2 { init cfgW false with
    stopEventSet := true
    capOpened := false } [] [Action.released] (by rfl)
  exact ⟨h.1, h2.1, h2.2⟩

end WebcamModel
